import Mathlib

/-
Verification of the BuildStream job-scheduler core against its design
specification.  The Python modules under verification are
`_scheduler/scheduler.py`, `_cas/casdprocessmanager.py` and `plugin.py`.
Each Python function used by a claim is embedded as an executable Lean
definition; stateful methods become explicit state passing, fallible
operations return `Except`, and wall-clock time is modelled with `ℚ`
(seconds).
-/

namespace BuildStream

/- The `SchedStatus` class of `scheduler.py`: the return codes of
`Scheduler.run()`. -/
namespace SchedStatus

def SUCCESS : Int := 0

def ERROR : Int := -1

def TERMINATED : Int := 1

end SchedStatus

/-- Embeds `ResourceType` (imported by `scheduler.py` from
`_scheduler/resources.py`); the closed enum of resource kinds named in the
spec: CACHE, DOWNLOAD, UPLOAD, PROCESS. -/
inductive ResourceType where
  | CACHE
  | DOWNLOAD
  | UPLOAD
  | PROCESS
deriving DecidableEq, Repr

/-- Elements are opaque to the scheduler core; we model them by ids.
In Python an `Element` object is always truthy, which matters for the
`any(queue.failed_elements)` test in `Scheduler.run()`. -/
abbrev Elem := Nat

/-- Embeds Python `any(queue.failed_elements)`: `any` over an iterable of
objects tests the truthiness of each member, and `Element` instances are
always truthy. -/
def pyAnyElems (l : List Elem) : Bool :=
  l.any (fun _ => true)

/-- Embeds the tail of `Scheduler.run()` (scheduler.py lines 166-176):
`failed = any(any(queue.failed_elements) for queue in self.queues)`,
then `ERROR` if failed, else `TERMINATED` if `self.terminated`, else
`SUCCESS`.  Each queue is represented by its `failed_elements` list. -/
def runStatus (failedElements : List (List Elem)) (terminated : Bool) : Int :=
  let failed := failedElements.any (fun q => pyAnyElems q)
  if failed then SchedStatus.ERROR
  else if terminated then SchedStatus.TERMINATED
  else SchedStatus.SUCCESS

/- casdprocessmanager.py: log rotation (`_rotate_and_get_next_logfile`). -/

/-- Embeds `_CASD_MAX_LOGFILES = 10` from casdprocessmanager.py. -/
def _CASD_MAX_LOGFILES : Nat := 10

/-- Embeds the `while len(existing_logs) >= _CASD_MAX_LOGFILES` loop of
`_rotate_and_get_next_logfile`: `existing_logs.pop(0)` pops the head of the
sorted in-memory name list and `os.remove` deletes that file from the
directory, until fewer than `_CASD_MAX_LOGFILES` names remain. -/
def deleteOldLogs : List String → List String → List String
  | [], dir => dir
  | h :: t, dir =>
    if _CASD_MAX_LOGFILES ≤ (h :: t).length then deleteOldLogs t (dir.erase h)
    else dir

/-- Embeds `_rotate_and_get_next_logfile`: sort the directory listing
(`sorted(os.listdir(self._log_dir))`), run the deletion loop, and return
the surviving directory contents together with the new logfile name
`str(self._start_time) + ".log"` (`self._start_time` is `time.time()`,
modelled as a rational number of epoch seconds). -/
def rotateAndGetNextLogfile (dir : List String) (startTime : ℚ) :
    List String × String :=
  let sortedLogs := dir.mergeSort (fun a b => decide (a ≤ b))
  (deleteOldLogs sortedLogs dir, toString startTime ++ ".log")

/-- Embeds the log-directory contents right after `CASDProcessManager.__init__`:
rotation runs, then `open(self._logfile, "w")` creates the new logfile if it
is not already present.  `dir0 = none` models a missing log directory (the
`FileNotFoundError` branch runs `os.makedirs`, leaving an empty directory and
skipping the deletion loop, which on an empty listing is a no-op). -/
def logDirAfterInit (dir0 : Option (List String)) (startTime : ℚ) : List String :=
  let dir := dir0.getD []
  let rot := rotateAndGetNextLogfile dir startTime
  if rot.2 ∈ rot.1 then rot.1 else rot.1 ++ [rot.2]

/- plugin.py: the process-wide plugin registry. -/

/-- Keys of a Python dict may mix types: `_plugin_register` stores entries
under the integer id while `_plugin_unregister` builds `str(unique_id)`.
Distinct constructors never compare equal, mirroring `1 != "1"` in Python. -/
inductive PyKey where
  | int (n : Nat)
  | str (s : String)
deriving DecidableEq, Repr

/-- Plugins are opaque to the registry; we track them by an object id. -/
abbrev Plugin := Nat

/-- Python exceptions raised by the embedded fragments: `KeyError` from
`del d[k]` on a missing key, `TypeError` from calling `None`, `ValueError`
from `list.remove` on a missing member. -/
inductive PyError where
  | keyError (k : PyKey)
  | typeError
  | valueError
deriving DecidableEq, Repr

/-- State of the module-level registry in plugin.py: `__PLUGINS_UNIQUE_ID`
and `__PLUGINS_TABLE`.  For live objects, `WeakValueDictionary` assignment
and deletion behave as plain dict assignment and deletion, modelled as an
association list whose first binding of a key is its value. -/
structure PluginRegistry where
  uniqueId : Nat
  table : List (PyKey × Plugin)
deriving DecidableEq, Repr

/-- Dict assignment `d[k] = v`: replace any existing binding of `k`. -/
def dictSet (t : List (PyKey × Plugin)) (k : PyKey) (v : Plugin) :
    List (PyKey × Plugin) :=
  (k, v) :: t.filter (fun e => !(e.1 = k : Bool))

/-- Embeds `_plugin_register(plugin)` (plugin.py lines 362-366): increment
`__PLUGINS_UNIQUE_ID`, store the plugin under the *integer* key, and return
the new id. -/
def _plugin_register (plugin : Plugin) (st : PluginRegistry) :
    Nat × PluginRegistry :=
  let newId := st.uniqueId + 1
  (newId, { uniqueId := newId, table := dictSet st.table (PyKey.int newId) plugin })

/-- Embeds `_plugin_unregister(unique_id)` (plugin.py lines 369-370):
`del __PLUGINS_TABLE[str(unique_id)]` — the key is the *string* form of the
id, and `del` raises `KeyError` when that key is absent. -/
def _plugin_unregister (uniqueId : Nat) (st : PluginRegistry) :
    Except PyError PluginRegistry :=
  let k := PyKey.str (toString uniqueId)
  if st.table.any (fun e => (e.1 = k : Bool)) then
    .ok { st with table := st.table.filter (fun e => !(e.1 = k : Bool)) }
  else .error (.keyError k)

/- scheduler.py: callback handling in `_start_job` and `job_completed`. -/

/-- Embeds `Scheduler._start_job` (scheduler.py lines 311-315): append the
job to `_active_jobs`, fire `_job_start_callback` only when one is set
(`if self._job_start_callback:`), then `job.start()`.  The Boolean argument
records whether a callback was supplied; the result carries the new
active-jobs list and whether the callback fired.  There is no failure
path, with or without a callback. -/
def startJob (jobStartCallback : Bool) (activeJobs : List Nat) (job : Nat) :
    Except PyError (List Nat × Bool) :=
  .ok (activeJobs ++ [job], jobStartCallback)

/-- Embeds `Scheduler.job_completed` (scheduler.py lines 248-257):
`self._active_jobs.remove(job)` (a `ValueError` when absent), then the
*unguarded* call `self._job_complete_callback(job, status)` — calling
`None` raises `TypeError` — then `_sched()`.  The Boolean argument records
whether `job_complete_callback` was supplied; the result is the
active-jobs list that `_sched` observes. -/
def jobCompleted (jobCompleteCallback : Bool) (activeJobs : List Nat)
    (job : Nat) : Except PyError (List Nat) :=
  if job ∈ activeJobs then
    if jobCompleteCallback then .ok (activeJobs.erase job)
    else .error .typeError
  else .error .valueError

/- casdprocessmanager.py: graceful termination of the casd child. -/

/-- Observable behaviour of the casd child process, fixing the outcome of
each probe `CASDProcessManager._terminate` may make: `poll` is
`process.poll()` (an exit code when the child already exited, else `none`);
`waitQuick` and `waitGrace` are the outcomes of `process.wait(timeout=0.5)`
and `process.wait(timeout=15)` (`none` models `subprocess.TimeoutExpired`). -/
structure ProcBehavior where
  poll : Option Int
  waitQuick : Option Int
  waitGrace : Option Int
deriving DecidableEq, Repr

/-- Events `_terminate` can perform on the child or the messenger, in
order.  `bugMsg rc` is a `MessageType.BUG` message carrying the exit code,
`warnMsg` the `MessageType.WARN` kill notice. -/
inductive CASDEvent where
  | bugMsg (rc : Int)
  | warnMsg
  | terminate
  | waitCall (timeout : ℚ)
  | kill
deriving DecidableEq, Repr

/-- Embeds `CASDProcessManager._terminate` (casdprocessmanager.py lines
118-164) as the trace of events it performs: poll first; when the child
already exited, message BUG (if a messenger is present) and return; else
terminate, wait 0.5 s, on timeout wait 15 s, on timeout kill plus a final
15 s wait and a WARN; a non-zero exit code observed by either wait yields
a closing BUG message when a messenger is present. -/
def casdTerminate (p : ProcBehavior) (messenger : Bool) : List CASDEvent :=
  match p.poll with
  | some rc => if messenger then [.bugMsg rc] else []
  | none =>
    let pre := [CASDEvent.terminate, CASDEvent.waitCall (1/2)]
    match p.waitQuick with
    | some rc => pre ++ (if rc ≠ 0 ∧ messenger then [.bugMsg rc] else [])
    | none =>
      let pre2 := pre ++ [CASDEvent.waitCall 15]
      match p.waitGrace with
      | some rc => pre2 ++ (if rc ≠ 0 ∧ messenger then [.bugMsg rc] else [])
      | none =>
        pre2 ++ [CASDEvent.kill, CASDEvent.waitCall 15] ++
          (if messenger then [CASDEvent.warnMsg] else [])

/-- Does a trace contain a BUG-level message? -/
def hasBug (tr : List CASDEvent) : Bool :=
  tr.any fun e => match e with
    | .bugMsg _ => true
    | _ => false

/- The resource manager.  `_scheduler/resources.py` is not among the
sources under verification; the operations scheduler.py calls on
`self.resources` are modelled from the spec, section 4.A. -/

/-- Modelled from the spec: the `ResourceState` held by the resource
manager (resources.py is missing from the sources).  Per kind, a quota
`max` (`none` models the count-unlimited CACHE guard the spec allows) and
a current `in_use`; `interest` is the exclusive-interest table flattened
to a multiset of (kind, tag) entries. -/
structure Resources where
  maxCache : Option Nat
  maxDownload : Option Nat
  maxUpload : Option Nat
  maxProcess : Option Nat
  useCache : Nat
  useDownload : Nat
  useUpload : Nat
  useProcess : Nat
  interest : List (ResourceType × String)
deriving DecidableEq, Repr

/-- Current `in_use` count of a kind. -/
def Resources.inUse (r : Resources) : ResourceType → Nat
  | .CACHE => r.useCache
  | .DOWNLOAD => r.useDownload
  | .UPLOAD => r.useUpload
  | .PROCESS => r.useProcess

/-- Replace the `in_use` count of a kind. -/
def Resources.withUse (r : Resources) (k : ResourceType) (n : Nat) : Resources :=
  match k with
  | .CACHE => { r with useCache := n }
  | .DOWNLOAD => { r with useDownload := n }
  | .UPLOAD => { r with useUpload := n }
  | .PROCESS => { r with useProcess := n }

/-- Modelled from the spec: the quota test `in_use[k] < max[k]` (vacuous
for an unlimited kind). -/
def Resources.quotaOk (r : Resources) (k : ResourceType) : Bool :=
  match k with
  | .CACHE => match r.maxCache with | none => true | some m => r.useCache < m
  | .DOWNLOAD => match r.maxDownload with | none => true | some m => r.useDownload < m
  | .UPLOAD => match r.maxUpload with | none => true | some m => r.useUpload < m
  | .PROCESS => match r.maxProcess with | none => true | some m => r.useProcess < m

/-- Is any exclusive interest registered on kind `k`? -/
def Resources.hasInterest (r : Resources) (k : ResourceType) : Bool :=
  r.interest.any (fun e => e.1 = k)

/-- Modelled from the spec: `reserve(requested, exclusive)` — atomically,
when every requested kind is under quota and carries no non-matching
exclusive interest, increment each requested kind and succeed; otherwise
change nothing and fail. -/
def Resources.reserve (r : Resources)
    (requested exclusive : List ResourceType) : Bool × Resources :=
  if requested.all
      (fun k => r.quotaOk k && (!r.hasInterest k || exclusive.contains k)) then
    (true, requested.foldl (fun acc k => acc.withUse k (acc.inUse k + 1)) r)
  else
    (false, r)

/-- Modelled from the spec: `release(kinds)` decrements `in_use` for each
kind. -/
def Resources.release (r : Resources) (kinds : List ResourceType) : Resources :=
  kinds.foldl (fun acc k => acc.withUse k (acc.inUse k - 1)) r

/-- Modelled from the spec: `register_exclusive_interest(kinds, tag)` adds
an entry per kind under the tag. -/
def Resources.registerExclusiveInterest (r : Resources)
    (kinds : List ResourceType) (tag : String) : Resources :=
  { r with interest := r.interest ++ kinds.map (fun k => (k, tag)) }

/-- Modelled from the spec: `unregister_exclusive_interest(kinds, tag)`
removes one entry per kind under the tag. -/
def Resources.unregisterExclusiveInterest (r : Resources)
    (kinds : List ResourceType) (tag : String) : Resources :=
  { r with interest := kinds.foldl (fun acc k => acc.erase (k, tag)) r.interest }

/-- Modelled from the spec (section 4.B) together with the use sites in
scheduler.py: job completion statuses.  scheduler.py only distinguishes
`status is JobStatus.OK` from the rest. -/
inductive JobStatus where
  | OK
  | FAIL
  | SKIPPED
  | TERMINATED
deriving DecidableEq, Repr

/-- The scheduler state the cache-maintenance machinery touches: the
`_queue_jobs` and `terminated` flags, the scheduled flags and running-job
handles of the two maintenance jobs (handles modelled by presence
booleans), and the resource manager. -/
structure SchedState where
  queueJobs : Bool
  terminated : Bool
  cacheSizeScheduled : Bool
  cacheSizeRunning : Bool
  cleanupScheduled : Bool
  cleanupRunning : Bool
  resources : Resources
deriving DecidableEq, Repr

/-- Embeds `Scheduler._cache_size_job_complete` (scheduler.py lines
318-337): clear the running handle, release CACHE and PROCESS, unregister
the `cache-size` exclusive interest; then — only when
`status is JobStatus.OK` — consult `artifactcache.full()` and, when full,
set `_cleanup_scheduled = True`.  `full` is the value
`self.context.artifactcache.full()` returns at completion time. -/
def cacheSizeJobComplete (st : SchedState) (status : JobStatus) (full : Bool) :
    SchedState :=
  let st1 := { st with
    cacheSizeRunning := false,
    resources := (st.resources.release
        [ResourceType.CACHE, ResourceType.PROCESS]).unregisterExclusiveInterest
        [ResourceType.CACHE] "cache-size" }
  if status ≠ JobStatus.OK then st1
  else if full then { st1 with cleanupScheduled := true }
  else st1

/-- A concrete resource-manager state for evaluating the embedded code on
explicit inputs: quotas 2/2/4, unlimited CACHE guard, one CACHE and one
PROCESS reservation held (as during a running cache-size job), and the
`cache-size` exclusive interest registered. -/
def resources0 : Resources :=
  { maxCache := none, maxDownload := some 2, maxUpload := some 2,
    maxProcess := some 4, useCache := 1, useDownload := 0, useUpload := 0,
    useProcess := 1, interest := [(ResourceType.CACHE, "cache-size")] }

/-- A concrete scheduler state in which a cache-size job is running and no
cleanup is scheduled. -/
def schedState0 : SchedState :=
  { queueJobs := true, terminated := false, cacheSizeScheduled := false,
    cacheSizeRunning := true, cleanupScheduled := false,
    cleanupRunning := false, resources := resources0 }

/- scheduler.py: `_terminate_jobs_real`. -/

/-- Observable behaviour of one active job under termination: `id`
identifies the job, `waitResult t` is what `job.terminate_wait(t)`
returns for timeout `t`, and `waitDuration t` is the wall-clock time that
call consumes. -/
structure TermJob where
  id : Nat
  waitResult : ℚ → Bool
  waitDuration : ℚ → ℚ

/-- Events of `_terminate_jobs_real`, in program order: `terminate i`,
`waitEvt i timeout result` for a `terminate_wait(timeout)` call that
returned `result`, and `kill i`. -/
inductive TermEvent where
  | terminate (i : Nat)
  | waitEvt (i : Nat) (timeout : ℚ) (result : Bool)
  | kill (i : Nat)
deriving DecidableEq, Repr

/-- Embeds the second loop of `_terminate_jobs_real` (scheduler.py lines
590-594): for each active job in order, `elapsed = now - wait_start`,
`timeout = max(wait_limit - elapsed.total_seconds(), 0.0)` with
`wait_limit = 20.0`, and `kill()` exactly when `terminate_wait(timeout)`
returns False.  The clock `now` advances by the duration of each
`terminate_wait` call. -/
def waitPass (waitStart : ℚ) : ℚ → List TermJob → List TermEvent
  | _, [] => []
  | now, j :: rest =>
    let timeout := max (20 - (now - waitStart)) 0
    let res := j.waitResult timeout
    (TermEvent.waitEvt j.id timeout res ::
      if res then [] else [TermEvent.kill j.id]) ++
      waitPass waitStart (now + j.waitDuration timeout) rest

/-- Embeds `Scheduler._terminate_jobs_real` (scheduler.py lines 579-594):
`wait_start` is taken first, the first pass calls `terminate()` on every
active job in order, the second pass waits under the shared 20-second
budget.  `t0` is the wall-clock time when the second pass begins. -/
def terminateJobsReal (jobs : List TermJob) (waitStart t0 : ℚ) :
    List TermEvent :=
  jobs.map (fun j => TermEvent.terminate j.id) ++ waitPass waitStart t0 jobs

/-- Characterization of the shared budget, from the claim: the wall-clock
time at which the second pass reaches the job at position `i`, each
earlier wait having consumed its duration at its own clamped timeout. -/
def nowBefore (jobs : List TermJob) (waitStart t0 : ℚ) : Nat → ℚ
  | 0 => t0
  | i + 1 =>
    let prev := nowBefore jobs waitStart t0 i
    match jobs[i]? with
    | none => prev
    | some j => prev + j.waitDuration (max (20 - (prev - waitStart)) 0)

/-- The clamped timeout handed to the job at position `i`: the remaining
share of the 20-second budget, clamped at zero. -/
def timeoutAt (jobs : List TermJob) (waitStart t0 : ℚ) (i : Nat) : ℚ :=
  max (20 - (nowBefore jobs waitStart t0 i - waitStart)) 0

/-- The wait/kill events the claim predicts for the job at position `i`:
one wait at the clamped remaining budget, then a kill exactly when that
wait returned False. -/
def waitEventsAt (jobs : List TermJob) (waitStart t0 : ℚ) (i : Nat) :
    List TermEvent :=
  match jobs[i]? with
  | none => []
  | some j =>
    if j.waitResult (timeoutAt jobs waitStart t0 i) then
      [TermEvent.waitEvt j.id (timeoutAt jobs waitStart t0 i) true]
    else
      [TermEvent.waitEvt j.id (timeoutAt jobs waitStart t0 i) false,
        TermEvent.kill j.id]

/-- The full trace the claim predicts: terminate every job in order, then
the per-position wait/kill events in order. -/
def terminateJobsSpec (jobs : List TermJob) (waitStart t0 : ℚ) :
    List TermEvent :=
  jobs.map (fun j => TermEvent.terminate j.id) ++
    (List.range jobs.length).flatMap (waitEventsAt jobs waitStart t0)

/- casdprocessmanager.py: the lazy CASDChannel connection. -/

/-- Outcome of the socket-polling loop of
`CASDChannel._establish_connection`: the socket appeared at the check
made at time `t`, or the budget was exceeded at the check made at time
`t` (raising `CASCacheError`), or the step fuel ran out (the Python loop
is unbounded; theorems assume sufficient fuel). -/
inductive PollResult where
  | connected (t : ℚ)
  | timedOut (t : ℚ)
  | outOfFuel
deriving DecidableEq, Repr

/-- Embeds the polling loop of `_establish_connection`
(casdprocessmanager.py lines 188-194): while `os.path.exists(socket_path)`
is false, raise `CASCacheError` once `time.time() > self._start_time + 15`,
else `time.sleep(0.01)` and check again.  `socketExists` gives the
filesystem state at each instant; the second component lists the times at
which existence was checked. -/
def pollLoop (socketExists : ℚ → Bool) (startTime : ℚ) :
    Nat → ℚ → PollResult × List ℚ
  | 0, _ => (.outOfFuel, [])
  | fuel + 1, now =>
    if socketExists now then (.connected now, [now])
    else if now > startTime + 15 then (.timedOut now, [now])
    else
      let r := pollLoop socketExists startTime fuel (now + 1 / 100)
      (r.1, now :: r.2)

/-- Result of `CASDChannel.get_cas()` (equally `get_local_cas` and
`get_bytestream`, which share the `_casd_channel is None` guard and
`_establish_connection`): a gRPC stub, or the raised `CASCacheError`. -/
inductive GetCasResult where
  | stub
  | casError
  | outOfFuel
deriving DecidableEq, Repr

/-- Embeds `CASDChannel.get_cas` (casdprocessmanager.py lines 205-208): when
`self._casd_channel is None`, run `_establish_connection` — poll, then on
success create the channel and stubs — and return the stub; a timeout
raises `CASCacheError` instead.  `established` is whether `_casd_channel`
is already set, `now` the time of the call. -/
def getCas (established : Bool) (socketExists : ℚ → Bool)
    (startTime now : ℚ) (fuel : Nat) : GetCasResult :=
  if established then .stub
  else
    match (pollLoop socketExists startTime fuel now).1 with
    | .connected _ => .stub
    | .timedOut _ => .casError
    | .outOfFuel => .outOfFuel

/- scheduler.py: `_sched_queue_jobs` and `_sched`.  The `Queue` class is
implemented by the scheduler's user; queues are abstract state machines
exposing exactly the methods scheduler.py calls. -/

/-- The queue interface the scheduler drives (spec section 4.C): a queue
is a state of type `σ` with the four methods `_sched_queue_jobs` calls;
`dequeue` yields the freshly promoted elements (the Python generator is
consumed by `list(...)`), `harvestJobs` returns the allocated jobs as
ids. -/
structure QueueOps (σ : Type) where
  enqueue : σ → List Elem → σ
  dequeue : σ → σ × List Elem
  harvestJobs : σ → σ × List Nat
  dequeueReady : σ → σ × Bool

/-- Embeds the forward pull loop of `_sched_queue_jobs` (scheduler.py
lines 433-436): walk the queues in order, call `queue.enqueue(elements)`
with the previous queue's freshly dequeued elements, then
`elements = list(queue.dequeue())` for the next queue. -/
def pullPass {σ : Type} (ops : QueueOps σ) : List σ → List Elem → List σ
  | [], _ => []
  | q :: rest, carry =>
    (ops.dequeue (ops.enqueue q carry)).1 ::
      pullPass ops rest (ops.dequeue (ops.enqueue q carry)).2

/-- The carry the claim predicts for the queue at position `i`: queue 0
receives the initial carry, and queue `i + 1` receives what queue `i`
freshly dequeued after being handed its own carry. -/
def pullCarry {σ : Type} (ops : QueueOps σ) (qs : List σ) (c0 : List Elem) :
    Nat → List Elem
  | 0 => c0
  | i + 1 =>
    match qs[i]? with
    | none => pullCarry ops qs c0 i
    | some q => (ops.dequeue (ops.enqueue q (pullCarry ops qs c0 i))).2

/-- Harvest along a list in traversal order, threading each queue's own
state and concatenating the returned job lists in that order. -/
def harvestFwd {σ : Type} (ops : QueueOps σ) : List σ → List σ × List Nat
  | [] => ([], [])
  | q :: rest =>
    let qh := ops.harvestJobs q
    let rh := harvestFwd ops rest
    (qh.1 :: rh.1, qh.2 ++ rh.2)

/-- Embeds `ready.extend(chain.from_iterable(q.harvest_jobs() for q in
reversed(self.queues)))` (scheduler.py lines 449-451): traverse the
reversed queue list calling `harvest_jobs()` on each member and
concatenate the job lists in that order; the queue objects are mutated in
place, so the queue list keeps its original order (states reversed
back). -/
def harvestReversedPass {σ : Type} (ops : QueueOps σ) (qs : List σ) :
    List σ × List Nat :=
  let r := harvestFwd ops qs.reverse
  (r.1.reverse, r.2)

/-- Embeds `process_queues = any(q.dequeue_ready() for q in self.queues)`
(scheduler.py line 457): Python's `any` short-circuits, so
`dequeue_ready()` is called queue by queue until the first True. -/
def anyDequeueReady {σ : Type} (ops : QueueOps σ) : List σ → List σ × Bool
  | [] => ([], false)
  | q :: rest =>
    let qr := ops.dequeueReady q
    if qr.2 then (qr.1 :: rest, true)
    else
      let rr := anyDequeueReady ops rest
      (qr.1 :: rr.1, rr.2)

/-- Embeds the `while self._queue_jobs and process_queues` loop of
`_sched_queue_jobs` (scheduler.py lines 426-457) with step fuel (the
Python loop is unbounded when queues keep reporting ready elements);
returns the final queue states and the accumulated `ready` list. -/
def schedQueueLoop {σ : Type} (ops : QueueOps σ) (queueJobs : Bool) :
    Nat → List σ → List Nat → List σ × List Nat
  | 0, qs, ready => (qs, ready)
  | fuel + 1, qs, ready =>
    if queueJobs then
      let qs1 := pullPass ops qs []
      let h := harvestReversedPass ops qs1
      let d := anyDequeueReady ops h.1
      if d.2 then schedQueueLoop ops queueJobs fuel d.1 (ready ++ h.2)
      else (d.1, ready ++ h.2)
    else (qs, ready)

/-- A job started by `_sched`: a queue-harvested job, the cleanup job, or
the cache-size job. -/
inductive StartedJob where
  | queueJob (j : Nat)
  | cleanup
  | cacheSize
deriving DecidableEq, Repr

/-- Embeds `_sched_queue_jobs` (scheduler.py lines 426-462): run the loop
from `ready = []`, then `for job in ready: self._start_job(job)` — every
collected job is started, in list order. -/
def schedQueueJobs {σ : Type} (ops : QueueOps σ) (queueJobs : Bool)
    (fuel : Nat) (qs : List σ) : List σ × List StartedJob :=
  let r := schedQueueLoop ops queueJobs fuel qs []
  (r.1, r.2.map StartedJob.queueJob)

/-- Embeds `Scheduler._sched_cleanup_job` (scheduler.py lines 357-374):
when a cleanup is scheduled and none is running, register the
`cache-cleanup` exclusive interest on CACHE, then try to reserve CACHE
and PROCESS with CACHE exclusive; on success clear the scheduled flag,
set the running handle and start the job.  On failure the registered
interest stays (the code re-registers on every round). -/
def schedCleanupJob (st : SchedState) : SchedState × List StartedJob :=
  if st.cleanupScheduled && !st.cleanupRunning then
    let r1 := st.resources.registerExclusiveInterest
      [ResourceType.CACHE] "cache-cleanup"
    let res := r1.reserve [ResourceType.CACHE, ResourceType.PROCESS]
      [ResourceType.CACHE]
    if res.1 then
      ({ st with
          cleanupScheduled := false
          cleanupRunning := true
          resources := res.2 }, [StartedJob.cleanup])
    else ({ st with resources := res.2 }, [])
  else (st, [])

/-- Embeds `Scheduler._sched_cache_size_job` (scheduler.py lines
386-415).  With `exclusive = true` (the startup path) the code asserts
nothing is scheduled, running or active — preconditions of the only
caller, not modelled as failures — and sets the scheduled flag, also
registering the `cache-size` exclusive interest on CACHE.  Then, when
scheduled and not running, reserve CACHE and PROCESS (with the possible
exclusive CACHE) and on success start the job. -/
def schedCacheSizeJob (st : SchedState) (exclusive : Bool) :
    SchedState × List StartedJob :=
  let st := if exclusive then { st with cacheSizeScheduled := true } else st
  if st.cacheSizeScheduled && !st.cacheSizeRunning then
    let r1 := if exclusive then
        st.resources.registerExclusiveInterest [ResourceType.CACHE] "cache-size"
      else st.resources
    let excl := if exclusive then [ResourceType.CACHE] else []
    let res := r1.reserve [ResourceType.CACHE, ResourceType.PROCESS] excl
    if res.1 then
      ({ st with
          cacheSizeScheduled := false
          cacheSizeRunning := true
          resources := res.2 }, [StartedJob.cacheSize])
    else ({ st with resources := res.2 }, [])
  else (st, [])

/-- Embeds `Scheduler._sched` (scheduler.py lines 474-494): unless
terminated, try the cleanup job, then the cache-size job (non-exclusive),
then the queue jobs.  The result lists every job started in this round in
start order.  (The closing `loop.stop()` when no jobs are active is not
modelled; no claim mentions it.) -/
def sched {σ : Type} (ops : QueueOps σ) (fuel : Nat) (st : SchedState)
    (qs : List σ) : (SchedState × List σ) × List StartedJob :=
  if st.terminated then ((st, qs), [])
  else
    let c := schedCleanupJob st
    let z := schedCacheSizeJob c.1 false
    let qj := schedQueueJobs ops z.1.queueJobs fuel qs
    ((z.1, qj.1), c.2 ++ z.2 ++ qj.2)

/-- Embeds `Scheduler.stop_queueing` (scheduler.py lines 221-222):
`self._queue_jobs = False`. -/
def stopQueueing (st : SchedState) : SchedState :=
  { st with queueJobs := false }

/-- A concrete scheduler state after `stop_queueing()`: queueing stopped,
a cleanup pending, no job running, and a resource state in which the
exclusive CACHE reservation will succeed. -/
def schedStateStopped : SchedState :=
  { queueJobs := false, terminated := false, cacheSizeScheduled := false,
    cacheSizeRunning := false, cleanupScheduled := true,
    cleanupRunning := false,
    resources :=
      { maxCache := none, maxDownload := some 2, maxUpload := some 2,
        maxProcess := some 4, useCache := 0, useDownload := 0,
        useUpload := 0, useProcess := 0, interest := [] } }

/-- A small concrete queue implementation over `Nat` states, used to
evaluate the queue-loop theorems on explicit inputs: the state counts
accepted elements, `dequeue` and `harvestJobs` emit the state value, and
`dequeue_ready` always reports False. -/
def demoOps : QueueOps Nat :=
  { enqueue := fun q c => q + c.length
    dequeue := fun q => (q, [q])
    harvestJobs := fun q => (q, [q])
    dequeueReady := fun q => (q, false) }

end BuildStream

namespace BuildStream

/-- The deletion loop keeps exactly the tail of the sorted listing: the
first `length - (MAX-1)` names in sorted order are removed from the
directory (natural subtraction makes this also cover listings shorter
than MAX, where nothing is deleted). -/
theorem deleteOldLogs_perm (sortedLogs : List String) :
    ∀ dir : List String, sortedLogs.Perm dir →
      (deleteOldLogs sortedLogs dir).Perm
        (sortedLogs.drop (sortedLogs.length - (_CASD_MAX_LOGFILES - 1))) := by
  induction sortedLogs with
  | nil =>
    intro dir hperm
    simpa [deleteOldLogs] using hperm.symm
  | cons h t ih =>
    intro dir hperm
    by_cases hlen : _CASD_MAX_LOGFILES ≤ (h :: t).length
    · have hp : t.Perm (dir.erase h) := by
        have := hperm.erase h
        simpa using this
      have hrec := ih (dir.erase h) hp
      have hklen : (h :: t).length - (_CASD_MAX_LOGFILES - 1) =
          (t.length - (_CASD_MAX_LOGFILES - 1)) + 1 := by
        simp only [List.length_cons, _CASD_MAX_LOGFILES] at hlen ⊢
        omega
      rw [deleteOldLogs, if_pos hlen, hklen]
      simpa using hrec
    · have hk : (h :: t).length - (_CASD_MAX_LOGFILES - 1) = 0 := by
        simp only [List.length_cons, _CASD_MAX_LOGFILES] at hlen ⊢
        omega
      rw [deleteOldLogs, if_neg hlen, hk]
      simpa using hperm.symm

/-- C9: after any construction of the CAS process manager, the deletion loop
has removed the sorted-first (oldest-named) files until at most MAX-1 = 9
remain — every deleted name precedes every surviving name in sorted order —
the new log file is named from the start epoch seconds with suffix `.log`,
and the directory holds at most 10 files. -/
theorem C9_log_rotation (dir0 : Option (List String)) (startTime : ℚ) :
    (logDirAfterInit dir0 startTime).length ≤ 10 ∧
    (toString startTime ++ ".log") ∈ logDirAfterInit dir0 startTime ∧
    (∀ dir : List String, dir0 = some dir →
      let sortedLogs := dir.mergeSort (fun a b => decide (a ≤ b))
      (rotateAndGetNextLogfile dir startTime).1.Perm
        (sortedLogs.drop (sortedLogs.length - 9)) ∧
      (rotateAndGetNextLogfile dir startTime).1.length ≤ 9 ∧
      ∀ a ∈ sortedLogs.take (sortedLogs.length - 9),
        ∀ b ∈ (rotateAndGetNextLogfile dir startTime).1, a ≤ b) := by
  have main : ∀ dir : List String,
      let sortedLogs := dir.mergeSort (fun a b => decide (a ≤ b))
      (rotateAndGetNextLogfile dir startTime).1.Perm
        (sortedLogs.drop (sortedLogs.length - 9)) ∧
      (rotateAndGetNextLogfile dir startTime).1.length ≤ 9 ∧
      ∀ a ∈ sortedLogs.take (sortedLogs.length - 9),
        ∀ b ∈ (rotateAndGetNextLogfile dir startTime).1, a ≤ b := by
    intro dir
    set sortedLogs := dir.mergeSort (fun a b => decide (a ≤ b)) with hs
    have hperm : sortedLogs.Perm dir := List.mergeSort_perm dir _
    have hdel := deleteOldLogs_perm sortedLogs dir hperm
    have hfst : (rotateAndGetNextLogfile dir startTime).1 =
        deleteOldLogs sortedLogs dir := rfl
    have hmax : _CASD_MAX_LOGFILES - 1 = 9 := rfl
    rw [hmax] at hdel
    refine ⟨by rw [hfst]; exact hdel, ?_, ?_⟩
    · rw [hfst, hdel.length_eq, List.length_drop]
      omega
    · intro a ha b hb
      have hsorted : List.Pairwise
          (fun a b : String => (decide (a ≤ b)) = true) sortedLogs := by
        refine List.sorted_mergeSort ?_ ?_ dir
        · intro a b c hab hbc
          simp only [decide_eq_true_eq] at hab hbc ⊢
          exact le_trans hab hbc
        · intro a b
          rcases le_total a b with h | h <;> simp [h]
      have hb' : b ∈ sortedLogs.drop (sortedLogs.length - 9) := by
        rw [hfst] at hb
        exact hdel.mem_iff.mp hb
      have hsplit := List.take_append_drop (sortedLogs.length - 9) sortedLogs
      rw [← hsplit, List.pairwise_append] at hsorted
      have := hsorted.2.2 a ha b hb'
      simpa using this
  refine ⟨?_, ?_, ?_⟩
  · rcases dir0 with _ | dir
    · simp [logDirAfterInit, rotateAndGetNextLogfile, deleteOldLogs]
    · have h9 := (main dir).2.1
      unfold logDirAfterInit
      by_cases hmem : (rotateAndGetNextLogfile dir startTime).2 ∈
          (rotateAndGetNextLogfile dir startTime).1
      · simp only [Option.getD, hmem, if_pos]
        omega
      · simp only [Option.getD, hmem, if_neg, not_false_iff, List.length_append]
        simp only [List.length_cons, List.length_nil]
        omega
  · rcases dir0 with _ | dir
    · unfold logDirAfterInit
      by_cases hmem : (rotateAndGetNextLogfile [] startTime).2 ∈
          (rotateAndGetNextLogfile [] startTime).1 <;>
        simp_all [rotateAndGetNextLogfile]
    · unfold logDirAfterInit
      by_cases hmem : (rotateAndGetNextLogfile dir startTime).2 ∈
          (rotateAndGetNextLogfile dir startTime).1 <;>
        simp_all [rotateAndGetNextLogfile]
  · intro dir hdir
    exact main dir

/-- C1: `Scheduler.run` returns ERROR (-1) exactly when some queue has a
non-empty `failed_elements`; otherwise TERMINATED (1) exactly when the
`terminated` flag is set; otherwise SUCCESS (0); failed elements take
precedence over termination. -/
theorem C1_run_status (failedElements : List (List Elem)) (terminated : Bool) :
    (runStatus failedElements terminated = SchedStatus.ERROR ↔
      ∃ q ∈ failedElements, q ≠ []) ∧
    (runStatus failedElements terminated = SchedStatus.TERMINATED ↔
      (¬ ∃ q ∈ failedElements, q ≠ []) ∧ terminated = true) ∧
    (runStatus failedElements terminated = SchedStatus.SUCCESS ↔
      (¬ ∃ q ∈ failedElements, q ≠ []) ∧ terminated = false) ∧
    SchedStatus.SUCCESS = 0 ∧ SchedStatus.ERROR = -1 ∧ SchedStatus.TERMINATED = 1 := by
  have hfail : (failedElements.any (fun q => pyAnyElems q) = true) ↔
      ∃ q ∈ failedElements, q ≠ [] := by
    simp only [List.any_eq_true, pyAnyElems]
    constructor
    · rintro ⟨q, hq, hne⟩
      exact ⟨q, hq, by rcases q with _ | ⟨a, t⟩ <;> simp_all⟩
    · rintro ⟨q, hq, hne⟩
      refine ⟨q, hq, ?_⟩
      rcases q with _ | ⟨a, t⟩ <;> simp_all
  rw [← hfail]
  unfold runStatus SchedStatus.ERROR SchedStatus.TERMINATED SchedStatus.SUCCESS
  rcases hany : failedElements.any (fun q => pyAnyElems q) with _ | _ <;>
    rcases terminated with _ | _ <;> simp_all

end BuildStream

namespace BuildStream

/-- C6 (the code evaluated at the failing input): registering on a fresh
registry increments the counter and returns id 1, storing the entry under
the integer key 1; but `_plugin_unregister 1` deletes the key
`str(1) = "1"`, which is absent from the table, so it raises `KeyError`
and does not restore the table to its pre-registration state. -/
theorem C6_unregister_key_bug :
    (_plugin_register 42 ⟨0, []⟩).1 = 0 + 1 ∧
    (_plugin_register 42 ⟨0, []⟩).2.table = [(PyKey.int 1, 42)] ∧
    _plugin_unregister 1 (_plugin_register 42 ⟨0, []⟩).2 =
      .error (.keyError (PyKey.str "1")) :=
  ⟨rfl, rfl, rfl⟩

/-- C5 (the code evaluated at the failing input): `_start_job` succeeds
with or without a `job_start_callback`, but `job_completed` invokes
`job_complete_callback` unconditionally, so with that callback omitted
(None) the completion of job 7 raises `TypeError` instead of succeeding. -/
theorem C5_job_completed_none_callback_bug :
    startJob false [] 7 = .ok ([7], false) ∧
    startJob true [] 7 = .ok ([7], true) ∧
    jobCompleted true [7] 7 = .ok [] ∧
    jobCompleted false [7] 7 = .error .typeError :=
  ⟨rfl, rfl, rfl, rfl⟩

/-- C8 counterexample: with a messenger present and the child already
exited with code 0, `_terminate` still reports a BUG-level message, so
the claimed "BUG exactly when the exit code is non-zero" fails at exit
code 0. -/
theorem C8_counterexample :
    casdTerminate ⟨some 0, none, none⟩ true = [.bugMsg 0] ∧
    ¬ (hasBug (casdTerminate ⟨some 0, none, none⟩ true) = true ↔ (0 : Int) ≠ 0) := by
  decide

/-- C8 (amended): when `release_resources` runs with a messenger and the
child has already exited (poll returns an exit code), `_terminate` reports
one BUG-level message whatever the exit code and stops there: the trace
contains no terminate, no wait and no kill. -/
theorem C8_already_exited (p : ProcBehavior) (rc : Int) (h : p.poll = some rc) :
    casdTerminate p true = [.bugMsg rc] ∧
    CASDEvent.terminate ∉ casdTerminate p true ∧
    CASDEvent.kill ∉ casdTerminate p true ∧
    ∀ t : ℚ, CASDEvent.waitCall t ∉ casdTerminate p true := by
  have htr : casdTerminate p true = [.bugMsg rc] := by
    simp [casdTerminate, h]
  refine ⟨htr, ?_, ?_, ?_⟩
  · rw [htr]; simp
  · rw [htr]; simp
  · intro t; rw [htr]; simp

/-- Witness for C8: the amended statement applied to a child that already
exited with code 5. -/
theorem C8_already_exited_witness :
    casdTerminate ⟨some 5, none, none⟩ true = [.bugMsg 5] ∧
    CASDEvent.terminate ∉ casdTerminate ⟨some 5, none, none⟩ true ∧
    CASDEvent.kill ∉ casdTerminate ⟨some 5, none, none⟩ true ∧
    ∀ t : ℚ, CASDEvent.waitCall t ∉ casdTerminate ⟨some 5, none, none⟩ true :=
  C8_already_exited ⟨some 5, none, none⟩ 5 rfl

/-- C3 counterexample: a cache-size job completes with FAIL status while
the artifact cache reports full, yet `cleanup_scheduled` is left False —
the code returns before the `artifacts.full()` check when the status is
not OK. -/
theorem C3_counterexample :
    (cacheSizeJobComplete schedState0 JobStatus.FAIL true).cleanupScheduled
      = false := by
  decide

/-- C3 (amended): on every completion of the cache-size job the scheduler
clears the running handle and releases the CACHE and PROCESS resources it
held (each in-use count drops by one); it newly sets `cleanup_scheduled`
exactly when the job finished with OK status and the artifact cache
reports full at completion time. -/
theorem C3_cache_size_complete (st : SchedState) (status : JobStatus)
    (full : Bool) :
    (cacheSizeJobComplete st status full).cacheSizeRunning = false ∧
    (cacheSizeJobComplete st status full).resources.inUse ResourceType.CACHE
      = st.resources.inUse ResourceType.CACHE - 1 ∧
    (cacheSizeJobComplete st status full).resources.inUse ResourceType.PROCESS
      = st.resources.inUse ResourceType.PROCESS - 1 ∧
    (cacheSizeJobComplete st status full).cleanupScheduled
      = (st.cleanupScheduled ||
          ((status = JobStatus.OK : Bool) && full)) := by
  rcases status <;> rcases full <;>
    simp [cacheSizeJobComplete, Resources.release, Resources.inUse,
      Resources.withUse, Resources.unregisterExclusiveInterest,
      List.foldl]

end BuildStream

namespace BuildStream

/-- Shift lemma for the budget clock: on a cons cell, position `k + 1`
sees the clock that position `k` of the tail sees after the head job
consumed its wait duration. -/
theorem nowBefore_cons (j : TermJob) (rest : List TermJob) (s t0 : ℚ)
    (k : Nat) :
    nowBefore (j :: rest) s t0 (k + 1) =
      nowBefore rest s (t0 + j.waitDuration (max (20 - (t0 - s)) 0)) k := by
  induction k with
  | zero => simp [nowBefore]
  | succ k ih =>
    rw [nowBefore, ih, List.getElem?_cons_succ]
    rw [nowBefore]

/-- Shift lemma for the predicted per-position events. -/
theorem waitEventsAt_cons (j : TermJob) (rest : List TermJob) (s t0 : ℚ)
    (k : Nat) :
    waitEventsAt (j :: rest) s t0 (k + 1) =
      waitEventsAt rest s (t0 + j.waitDuration (max (20 - (t0 - s)) 0)) k := by
  unfold waitEventsAt timeoutAt
  rw [nowBefore_cons, List.getElem?_cons_succ]

/-- Unfolding of the predicted per-position events at a position inside
the job list. -/
theorem waitEventsAt_of_getElem {jobs : List TermJob} {i : Nat} {j : TermJob}
    (s t0 : ℚ) (h : jobs[i]? = some j) :
    waitEventsAt jobs s t0 i =
      if j.waitResult (timeoutAt jobs s t0 i) then
        [TermEvent.waitEvt j.id (timeoutAt jobs s t0 i) true]
      else
        [TermEvent.waitEvt j.id (timeoutAt jobs s t0 i) false,
          TermEvent.kill j.id] := by
  unfold waitEventsAt
  rw [h]

/-- The second pass of `_terminate_jobs_real` produces exactly the events
the shared-budget characterization predicts, position by position. -/
theorem waitPass_eq_spec (jobs : List TermJob) (s : ℚ) :
    ∀ t0 : ℚ, waitPass s t0 jobs =
      (List.range jobs.length).flatMap (waitEventsAt jobs s t0) := by
  induction jobs with
  | nil => intro t0; rfl
  | cons j rest ih =>
    intro t0
    rw [List.length_cons, List.range_succ_eq_map]
    rw [List.flatMap_cons, List.flatMap_map]
    have htail : (fun k => waitEventsAt (j :: rest) s t0 (Nat.succ k)) =
        (waitEventsAt rest s (t0 + j.waitDuration (max (20 - (t0 - s)) 0))) := by
      funext k
      exact waitEventsAt_cons j rest s t0 k
    rw [htail, ← ih]
    have hhead : waitEventsAt (j :: rest) s t0 0 =
        (TermEvent.waitEvt j.id (max (20 - (t0 - s)) 0)
            (j.waitResult (max (20 - (t0 - s)) 0)) ::
          if j.waitResult (max (20 - (t0 - s)) 0) then []
          else [TermEvent.kill j.id]) := by
      unfold waitEventsAt timeoutAt nowBefore
      rcases hres : j.waitResult (max (20 - (t0 - s)) 0) <;> simp [hres]
    rw [waitPass, hhead]

/-- C4: `_terminate_jobs_real` first calls `terminate()` on every active
job in order, then waits on the jobs in order under the single shared
20-second budget — each wait gets the remaining budget clamped at zero —
and `kill()` is performed on a job exactly when its `terminate_wait`
returned False. -/
theorem C4_terminate_jobs_real (jobs : List TermJob) (waitStart t0 : ℚ) :
    terminateJobsReal jobs waitStart t0 = terminateJobsSpec jobs waitStart t0 ∧
    (∀ d : Nat, TermEvent.kill d ∈ terminateJobsReal jobs waitStart t0 ↔
      ∃ i, ∃ h : i < jobs.length,
        (jobs.get ⟨i, h⟩).id = d ∧
        (jobs.get ⟨i, h⟩).waitResult (timeoutAt jobs waitStart t0 i) = false) := by
  have heq : terminateJobsReal jobs waitStart t0 =
      terminateJobsSpec jobs waitStart t0 := by
    unfold terminateJobsReal terminateJobsSpec
    rw [waitPass_eq_spec]
  refine ⟨heq, ?_⟩
  intro d
  rw [heq]
  unfold terminateJobsSpec
  simp only [List.mem_append, List.mem_map, List.mem_flatMap, List.mem_range]
  constructor
  · rintro (⟨j, hj, hfalse⟩ | ⟨i, hi, hmem⟩)
    · cases hfalse
    · have hget : jobs[i]? = some (jobs.get ⟨i, hi⟩) := by
        rw [List.getElem?_eq_getElem hi]
        rfl
      rw [waitEventsAt_of_getElem waitStart t0 hget] at hmem
      rcases hres : (jobs.get ⟨i, hi⟩).waitResult
          (timeoutAt jobs waitStart t0 i) with _ | _
      · rw [hres] at hmem
        simp only [Bool.false_eq_true, if_false, List.mem_cons,
          List.mem_singleton, List.not_mem_nil, or_false] at hmem
        rcases hmem with h1 | h2
        · cases h1
        · exact ⟨i, hi, by cases h2; rfl, hres⟩
      · rw [hres] at hmem
        simp only [if_true, List.mem_singleton] at hmem
        cases hmem
  · rintro ⟨i, hlt, hid, hres⟩
    right
    refine ⟨i, hlt, ?_⟩
    have hget : jobs[i]? = some (jobs.get ⟨i, hlt⟩) := by
      rw [List.getElem?_eq_getElem hlt]
      rfl
    rw [waitEventsAt_of_getElem waitStart t0 hget, hres]
    simp only [Bool.false_eq_true, if_false, List.mem_cons, List.mem_singleton]
    right
    left
    rw [hid]

/-- Witness for C4: a single job whose `terminate_wait` returns False is
killed; the timeout handed to it at position 0 is the full 20-second
budget. -/
theorem C4_terminate_jobs_real_witness :
    TermEvent.kill 3 ∈
      terminateJobsReal [⟨3, fun _ => false, fun _ => 1⟩] 0 0 :=
  ((C4_terminate_jobs_real [⟨3, fun _ => false, fun _ => 1⟩] 0 0).2 3).mpr
    ⟨0, by decide, rfl, rfl⟩

end BuildStream

namespace BuildStream

/-- If the socket never appears, the polling loop never reports a
connection (so no stub can be produced). -/
theorem pollLoop_no_connection (socketExists : ℚ → Bool) (startTime : ℚ)
    (hnever : ∀ t : ℚ, socketExists t = false) :
    ∀ (fuel : Nat) (now t : ℚ),
      (pollLoop socketExists startTime fuel now).1 ≠ PollResult.connected t := by
  intro fuel
  induction fuel with
  | zero => intro now t h; cases h
  | succ fuel ih =>
    intro now t
    rw [pollLoop, hnever now]
    by_cases htime : now > startTime + 15
    · rw [if_pos htime]
      intro h; cases h
    · rw [if_neg htime]
      simpa using ih (now + 1 / 100) t

/-- With enough fuel for the 15-second budget at 10 ms steps, the loop
does not run out of fuel: it terminates with a connection or a timeout. -/
theorem pollLoop_enough_fuel (socketExists : ℚ → Bool) (startTime : ℚ) :
    ∀ (fuel : Nat) (now : ℚ),
      (startTime + 15 - now) * 100 + 2 ≤ (fuel : ℚ) → 1 ≤ fuel →
      (pollLoop socketExists startTime fuel now).1 ≠ PollResult.outOfFuel := by
  intro fuel
  induction fuel with
  | zero => intro now hq h1; exact absurd h1 (by omega)
  | succ fuel ih =>
    intro now hq h1
    rw [pollLoop]
    by_cases hex : socketExists now
    · rw [if_pos hex]; intro h; cases h
    · rw [if_neg hex]
      by_cases htime : now > startTime + 15
      · rw [if_pos htime]; intro h; cases h
      · rw [if_neg htime]
        have hnow : startTime + 15 - now ≥ 0 := by linarith [not_lt.mp htime]
        have hcast : ((fuel + 1 : Nat) : ℚ) = (fuel : ℚ) + 1 := by push_cast; ring
        rw [hcast] at hq
        have hfuel1 : (1 : ℚ) ≤ (fuel : ℚ) := by nlinarith
        have hfuelnat : 1 ≤ fuel := by exact_mod_cast hfuel1
        have hq' : (startTime + 15 - (now + 1 / 100)) * 100 + 2 ≤ (fuel : ℚ) := by
          nlinarith
        simpa using ih (now + 1 / 100) hq' hfuelnat

/-- The loop checks for the socket every 10 ms: the recorded check times
form an arithmetic progression of step 1/100 second from the first call. -/
theorem pollLoop_times (socketExists : ℚ → Bool) (startTime : ℚ) :
    ∀ (fuel : Nat) (now : ℚ),
      (pollLoop socketExists startTime fuel now).2 =
        (List.range (pollLoop socketExists startTime fuel now).2.length).map
          (fun k : Nat => now + (k : ℚ) / 100) := by
  intro fuel
  induction fuel with
  | zero => intro now; rfl
  | succ fuel ih =>
    intro now
    rw [pollLoop]
    by_cases hex : socketExists now
    · rw [if_pos hex]; norm_num [List.range_succ]
    · rw [if_neg hex]
      by_cases htime : now > startTime + 15
      · rw [if_pos htime]; norm_num [List.range_succ]
      · rw [if_neg htime]
        simp only [List.length_cons]
        rw [List.range_succ_eq_map, List.map_cons, List.map_map]
        have hfun : ((fun k : Nat => now + (k : ℚ) / 100) ∘ Nat.succ) =
            (fun k : Nat => (now + 1 / 100) + (k : ℚ) / 100) := by
          funext k
          simp only [Function.comp_apply, Nat.succ_eq_add_one]
          push_cast
          ring
        rw [hfun, ← ih (now + 1 / 100)]
        simp

/-- C7: on the first stub request with the channel not yet established,
`_establish_connection` polls for the socket path every 10 ms (the check
times advance by exactly 1/100 s), and when the socket never appears and
the 15-second budget (counted from `self._start_time`) runs out, the call
raises `CASCacheError` instead of returning a stub. -/
theorem C7_get_cas_timeout (socketExists : ℚ → Bool) (startTime now : ℚ)
    (fuel : Nat) (hnever : ∀ t : ℚ, socketExists t = false)
    (hfuel : (startTime + 15 - now) * 100 + 2 ≤ (fuel : ℚ)) (h1 : 1 ≤ fuel) :
    getCas false socketExists startTime now fuel = GetCasResult.casError ∧
    (pollLoop socketExists startTime fuel now).2 =
      (List.range (pollLoop socketExists startTime fuel now).2.length).map
        (fun k : Nat => now + (k : ℚ) / 100) := by
  refine ⟨?_, pollLoop_times socketExists startTime fuel now⟩
  rcases hres : (pollLoop socketExists startTime fuel now).1 with t | t | _
  · exact absurd hres (pollLoop_no_connection socketExists startTime hnever fuel now t)
  · unfold getCas
    rw [if_neg (by simp), hres]
  · exact absurd hres (pollLoop_enough_fuel socketExists startTime fuel now hfuel h1)

/-- Witness for C7: a socket that never appears, with the first call at
the manager's start time and 1502 steps of fuel, yields the CAS error. -/
theorem C7_get_cas_timeout_witness :
    getCas false (fun _ => false) 0 0 1502 = GetCasResult.casError :=
  (C7_get_cas_timeout (fun _ => false) 0 0 1502 (fun _ => rfl)
    (by norm_num) (by norm_num)).1

end BuildStream

namespace BuildStream

/-- The pull pass visits every queue and only those. -/
theorem pullPass_length {σ : Type} (ops : QueueOps σ) :
    ∀ (qs : List σ) (c : List Elem), (pullPass ops qs c).length = qs.length := by
  intro qs
  induction qs with
  | nil => intro c; rfl
  | cons q rest ih =>
    intro c
    rw [pullPass, List.length_cons, List.length_cons, ih]

/-- Shift lemma for the predicted carries: on a cons cell, position
`i + 1` receives what position `i` of the tail receives once the head
queue has consumed the initial carry. -/
theorem pullCarry_cons {σ : Type} (ops : QueueOps σ) (q : σ) (rest : List σ)
    (c0 : List Elem) (i : Nat) :
    pullCarry ops (q :: rest) c0 (i + 1) =
      pullCarry ops rest ((ops.dequeue (ops.enqueue q c0)).2) i := by
  induction i with
  | zero => simp [pullCarry]
  | succ i ih =>
    rw [pullCarry, ih, List.getElem?_cons_succ]
    rw [pullCarry]

/-- The pull pass computes, at each position, exactly the hand-off chain
the claim describes: queue `i` is enqueued with the carry produced by
queues `0..i-1` and replaced by its state after `enqueue` plus
`dequeue`. -/
theorem pullPass_char {σ : Type} (ops : QueueOps σ) :
    ∀ (qs : List σ) (c0 : List Elem) (i : Nat) (h : i < qs.length),
      (pullPass ops qs c0)[i]? =
        some (ops.dequeue
          (ops.enqueue (qs.get ⟨i, h⟩) (pullCarry ops qs c0 i))).1 := by
  intro qs
  induction qs with
  | nil => intro c0 i h; cases h
  | cons q rest ih =>
    intro c0 i h
    rcases i with _ | i
    · simp [pullPass, pullCarry]
    · have hlt : i < rest.length := by
        simpa using Nat.lt_of_succ_lt_succ h
      rw [pullPass, List.getElem?_cons_succ,
        ih ((ops.dequeue (ops.enqueue q c0)).2) i hlt, pullCarry_cons]
      rfl

/-- The forward harvest threads each queue's own state: the final states
are the per-queue harvested states and the jobs are the per-queue job
lists flattened in traversal order. -/
theorem harvestFwd_char {σ : Type} (ops : QueueOps σ) :
    ∀ l : List σ,
      (harvestFwd ops l).1 = l.map (fun q => (ops.harvestJobs q).1) ∧
      (harvestFwd ops l).2 =
        (l.map (fun q => (ops.harvestJobs q).2)).flatten := by
  intro l
  induction l with
  | nil => exact ⟨rfl, rfl⟩
  | cons q rest ih =>
    rw [harvestFwd]
    constructor
    · rw [List.map_cons]
      exact congrArg _ ih.1
    · rw [List.map_cons, List.flatten_cons]
      exact congrArg _ ih.2

/-- The reversed harvest updates every queue in place and collects the
job lists in reverse queue order. -/
theorem harvestReversedPass_char {σ : Type} (ops : QueueOps σ) (qs : List σ) :
    (harvestReversedPass ops qs).1 =
      qs.map (fun q => (ops.harvestJobs q).1) ∧
    (harvestReversedPass ops qs).2 =
      (qs.reverse.map (fun q => (ops.harvestJobs q).2)).flatten := by
  obtain ⟨h1, h2⟩ := harvestFwd_char ops qs.reverse
  constructor
  · show (harvestFwd ops qs.reverse).1.reverse = _
    rw [h1, List.map_reverse, List.reverse_reverse]
  · exact h2

/-- Python's short-circuiting `any` over `dequeue_ready()` reports True
exactly when some queue reports True (each queue's call touches only its
own state, so short-circuiting does not change the verdict). -/
theorem anyDequeueReady_flag {σ : Type} (ops : QueueOps σ) :
    ∀ qs : List σ,
      (anyDequeueReady ops qs).2 = qs.any (fun q => (ops.dequeueReady q).2) := by
  intro qs
  induction qs with
  | nil => rfl
  | cons q rest ih =>
    rw [anyDequeueReady, List.any_cons]
    by_cases hq : (ops.dequeueReady q).2
    · rw [if_pos hq, hq]
      rfl
    · rw [if_neg hq]
      simp only [Bool.not_eq_true] at hq
      rw [hq, Bool.false_or]
      exact ih

end BuildStream

namespace BuildStream

/-- C2: in each iteration of the `_sched_queue_jobs` loop the scheduler
(1) walks queues forward, handing each the previous queue's freshly
dequeued elements, (2) collects `harvest_jobs()` in reverse queue order,
concatenating onto the ready list, (3) repeats exactly when some queue
reports `dequeue_ready()` True, and afterwards (4) starts the collected
jobs in list order. -/
theorem C2_sched_queue_jobs {σ : Type} (ops : QueueOps σ) (qs : List σ)
    (fuel : Nat) (ready : List Nat) (qj : Bool) :
    (∀ (c0 : List Elem) (i : Nat) (h : i < qs.length),
      (pullPass ops qs c0)[i]? =
        some (ops.dequeue
          (ops.enqueue (qs.get ⟨i, h⟩) (pullCarry ops qs c0 i))).1) ∧
    (harvestReversedPass ops qs).2 =
      (qs.reverse.map (fun q => (ops.harvestJobs q).2)).flatten ∧
    (harvestReversedPass ops qs).1 =
      qs.map (fun q => (ops.harvestJobs q).1) ∧
    (anyDequeueReady ops qs).2 =
      qs.any (fun q => (ops.dequeueReady q).2) ∧
    (schedQueueLoop ops true (fuel + 1) qs ready =
      if (anyDequeueReady ops
          (harvestReversedPass ops (pullPass ops qs [])).1).2 then
        schedQueueLoop ops true fuel
          (anyDequeueReady ops
            (harvestReversedPass ops (pullPass ops qs [])).1).1
          (ready ++ (harvestReversedPass ops (pullPass ops qs [])).2)
      else
        ((anyDequeueReady ops
            (harvestReversedPass ops (pullPass ops qs [])).1).1,
          ready ++ (harvestReversedPass ops (pullPass ops qs [])).2)) ∧
    (schedQueueJobs ops qj fuel qs).2 =
      (schedQueueLoop ops qj fuel qs []).2.map StartedJob.queueJob := by
  refine ⟨pullPass_char ops qs, (harvestReversedPass_char ops qs).2,
    (harvestReversedPass_char ops qs).1, anyDequeueReady_flag ops qs, ?_, rfl⟩
  rfl

/-- Witness for C2: on two concrete demo queues, queue 1 is enqueued with
what queue 0 freshly dequeued. -/
theorem C2_sched_queue_jobs_witness :
    (pullPass demoOps [5, 7] [])[1]? =
      some (demoOps.dequeue (demoOps.enqueue ([5, 7].get ⟨1, by decide⟩)
        (pullCarry demoOps [5, 7] [] 1))).1 :=
  (C2_sched_queue_jobs demoOps [5, 7] 0 [] true).1 [] 1 (by decide)

/-- With the `_queue_jobs` flag cleared, the queue loop exits before its
first iteration: queue states untouched, no job collected. -/
theorem schedQueueLoop_stopped {σ : Type} (ops : QueueOps σ) :
    ∀ (fuel : Nat) (qs : List σ) (ready : List Nat),
      schedQueueLoop ops false fuel qs ready = (qs, ready) := by
  intro fuel
  cases fuel <;> intro qs ready <;> rfl

/-- `_sched_cleanup_job` never touches `_queue_jobs` and starts either
nothing or exactly the cleanup job. -/
theorem schedCleanupJob_cases (st : SchedState) :
    (schedCleanupJob st).1.queueJobs = st.queueJobs ∧
    ((schedCleanupJob st).2 = [] ∨
      (schedCleanupJob st).2 = [StartedJob.cleanup]) := by
  by_cases h1 : st.cleanupScheduled && !st.cleanupRunning
  · by_cases h2 : ((st.resources.registerExclusiveInterest
        [ResourceType.CACHE] "cache-cleanup").reserve
        [ResourceType.CACHE, ResourceType.PROCESS] [ResourceType.CACHE]).1
    · constructor
      · simp [schedCleanupJob, h1, h2]
      · right; simp [schedCleanupJob, h1, h2]
    · constructor
      · simp [schedCleanupJob, h1, h2]
      · left; simp [schedCleanupJob, h1, h2]
  · constructor
    · simp [schedCleanupJob, h1]
    · left; simp [schedCleanupJob, h1]

/-- `_sched_cache_size_job` (non-exclusive path, as called from `_sched`)
never touches `_queue_jobs` and starts either nothing or exactly the
cache-size job. -/
theorem schedCacheSizeJob_cases (st : SchedState) :
    (schedCacheSizeJob st false).1.queueJobs = st.queueJobs ∧
    ((schedCacheSizeJob st false).2 = [] ∨
      (schedCacheSizeJob st false).2 = [StartedJob.cacheSize]) := by
  by_cases h1 : st.cacheSizeScheduled && !st.cacheSizeRunning
  · by_cases h2 : (st.resources.reserve
        [ResourceType.CACHE, ResourceType.PROCESS] []).1
    · constructor
      · simp [schedCacheSizeJob, h1, h2]
      · right; simp [schedCacheSizeJob, h1, h2]
    · constructor
      · simp [schedCacheSizeJob, h1, h2]
      · left; simp [schedCacheSizeJob, h1, h2]
  · constructor
    · simp [schedCacheSizeJob, h1]
    · left; simp [schedCacheSizeJob, h1]

/-- When a cleanup is scheduled, none is running and the exclusive
reservation succeeds, `_sched_cleanup_job` starts the cleanup job. -/
theorem schedCleanupJob_starts (st : SchedState)
    (h1 : st.cleanupScheduled = true) (h2 : st.cleanupRunning = false)
    (h3 : ((st.resources.registerExclusiveInterest
        [ResourceType.CACHE] "cache-cleanup").reserve
        [ResourceType.CACHE, ResourceType.PROCESS]
        [ResourceType.CACHE]).1 = true) :
    (schedCleanupJob st).2 = [StartedJob.cleanup] := by
  simp [schedCleanupJob, h1, h2, h3]

end BuildStream

namespace BuildStream

/-- C10: `stop_queueing()` clears the `_queue_jobs` flag; with that flag
False a `_sched` round never starts a queue-harvested job and leaves the
queues untouched (the loop body never runs), the flag stays False (no
scheduler operation resets it), yet a pending cleanup job is still
scheduled and started when its exclusive reservation succeeds, since the
cache-maintenance schedulers are not guarded by `_queue_jobs`. -/
theorem C10_stop_queueing {σ : Type} (ops : QueueOps σ) (fuel : Nat)
    (st : SchedState) (qs : List σ) (h : st.queueJobs = false) :
    (∀ st' : SchedState, (stopQueueing st').queueJobs = false) ∧
    (∀ j : Nat, StartedJob.queueJob j ∉ (sched ops fuel st qs).2) ∧
    (sched ops fuel st qs).1.1.queueJobs = false ∧
    (sched ops fuel st qs).1.2 = qs ∧
    (st.terminated = false → st.cleanupScheduled = true →
      st.cleanupRunning = false →
      ((st.resources.registerExclusiveInterest [ResourceType.CACHE]
          "cache-cleanup").reserve [ResourceType.CACHE, ResourceType.PROCESS]
        [ResourceType.CACHE]).1 = true →
      StartedJob.cleanup ∈ (sched ops fuel st qs).2) := by
  refine ⟨fun st' => rfl, ?_⟩
  rcases hterm : st.terminated with _ | _
  · -- not terminated: the maintenance schedulers run, the queue loop is
    -- guarded by the cleared flag
    have hc := schedCleanupJob_cases st
    have hz := schedCacheSizeJob_cases (schedCleanupJob st).1
    have hqj : (schedCacheSizeJob (schedCleanupJob st).1 false).1.queueJobs
        = false := by
      rw [hz.1, hc.1, h]
    have hsched : sched ops fuel st qs =
        (((schedCacheSizeJob (schedCleanupJob st).1 false).1, qs),
          (schedCleanupJob st).2 ++
            (schedCacheSizeJob (schedCleanupJob st).1 false).2 ++ []) := by
      unfold sched
      rw [if_neg (by rw [hterm]; exact Bool.false_ne_true)]
      show (((schedCacheSizeJob (schedCleanupJob st).1 false).1,
          (schedQueueLoop ops
            (schedCacheSizeJob (schedCleanupJob st).1 false).1.queueJobs
            fuel qs []).1),
        (schedCleanupJob st).2 ++
          (schedCacheSizeJob (schedCleanupJob st).1 false).2 ++
          ((schedQueueLoop ops
            (schedCacheSizeJob (schedCleanupJob st).1 false).1.queueJobs
            fuel qs []).2.map StartedJob.queueJob)) = _
      rw [hqj, schedQueueLoop_stopped]
      rfl
    refine ⟨?_, ?_, ?_, ?_⟩
    · intro j
      rw [hsched]
      simp only [List.append_nil, List.mem_append]
      rintro (hmem | hmem)
      · rcases hc.2 with hc2 | hc2 <;> rw [hc2] at hmem <;> simp_all
      · rcases hz.2 with hz2 | hz2 <;> rw [hz2] at hmem <;> simp_all
    · rw [hsched]
      exact hqj
    · rw [hsched]
    · intro ht h1 h2 h3
      rw [hsched]
      simp only [List.append_nil, List.mem_append]
      left
      rw [schedCleanupJob_starts st h1 h2 h3]
      simp
  · -- terminated: _sched does nothing at all
    have hsched : sched ops fuel st qs = ((st, qs), []) := by
      unfold sched
      rw [if_pos hterm]
    refine ⟨?_, ?_, ?_, ?_⟩
    · intro j
      rw [hsched]
      simp
    · rw [hsched]
      exact h
    · rw [hsched]
    · intro ht
      exact absurd ht (by decide)
end BuildStream

namespace BuildStream

/-- Witness for C10: with queueing stopped and a cleanup pending on a
reservable resource state, a `_sched` round still starts the cleanup
job. -/
theorem C10_stop_queueing_witness :
    StartedJob.cleanup ∈ (sched demoOps 1 schedStateStopped []).2 :=
  (C10_stop_queueing demoOps 1 schedStateStopped [] rfl).2.2.2.2
    rfl rfl rfl (by decide)

/-- Witness for C9: a one-file log directory ends up with the old file
plus the new log, and the rotation keeps at most nine old files. -/
theorem C9_log_rotation_witness :
    (logDirAfterInit (some ["a.log"]) 17).length ≤ 10 ∧
    (toString (17 : ℚ) ++ ".log") ∈ logDirAfterInit (some ["a.log"]) 17 ∧
    (rotateAndGetNextLogfile ["a.log"] 17).1.length ≤ 9 := by
  refine ⟨(C9_log_rotation (some ["a.log"]) 17).1,
    (C9_log_rotation (some ["a.log"]) 17).2.1, ?_⟩
  exact ((C9_log_rotation (some ["a.log"]) 17).2.2 ["a.log"] rfl).2.1

end BuildStream
